import Mathlib

/-!
# Verification of the Smart Canteen Analytics pipeline

Shallow embedding of `pipeline.py` (load → validate → join → aggregate →
derive → render).  Tables are lists of structures, numeric cells are exact
rationals (`ℚ`), CSV parse failures are modelled explicitly, and fallible
stages return `Except`.  Every definition follows the corresponding Python
function; doc comments cite the source lines.
-/

namespace Canteen

/-- Banker's rounding to an integer (round-half-to-even), the rounding mode of
`numpy.round` / `pandas.Series.round`, idealized over exact rationals.
`x.num.fdiv x.den` is the floor of `x` (floor division by the positive
denominator). -/
def roundHalfEven (x : ℚ) : ℤ :=
  let f : ℤ := x.num.fdiv (x.den : ℤ)
  let r : ℚ := x - (f : ℚ)
  if r < 1/2 then f
  else if 1/2 < r then f + 1
  else if f.emod 2 = 0 then f else f + 1

/-- `round(x, 2)` as used by `Series.round(2)` / `np.round(_, 2)`. -/
def round2 (q : ℚ) : ℚ := (roundHalfEven (q * 100) : ℚ) / 100

/-- Outcome of parsing one CSV cell with `pd.to_numeric(errors="coerce")`:
either a number or a NaN (unparseable). -/
inductive Cell where
  | num (q : ℚ)
  | bad
deriving DecidableEq, Repr

/-- `pd.to_numeric(col, errors="coerce").fillna(0.0)` — pipeline.py line 32. -/
def coerceQ : Cell → ℚ
  | .num q => q
  | .bad => 0

/-- Truncation toward zero, the behaviour of `.astype(int)` on a float. -/
def truncQ (q : ℚ) : ℤ := q.num.tdiv (q.den : ℤ)

/-- `pd.to_numeric(col, errors="coerce").fillna(0).astype(int)` —
pipeline.py lines 36–37.  Note: no clamping to non-negative values. -/
def coerceInt : Cell → ℤ
  | .num q => truncQ q
  | .bad => 0

/-! ## Raw inputs (the two CSVs after `pd.read_csv`) -/

/-- One raw menu record.  `price` is a raw cell (later coerced);
`unitcost` is the value of the optional cost column, meaningful only when the
header list declares a `unitcost` column. -/
structure RawMenuRow where
  item_id : ℤ
  item_name : String
  category : String
  price : Cell
  unitcost : ℚ
deriving DecidableEq, Repr

structure RawMenu where
  cols : List String
  rows : List RawMenuRow
deriving DecidableEq, Repr

/-- One raw sales record.  `quantity` and `student_count` are raw cells;
`date` is the outcome of `pd.to_datetime(_, errors="coerce").dt.date`
(day number, `none` = NaT). -/
structure RawSaleRow where
  item_id : ℤ
  quantity : Cell
  student_count : Cell
  date : Option ℤ
deriving DecidableEq, Repr

structure RawSales where
  cols : List String
  rows : List RawSaleRow
deriving DecidableEq, Repr

/-! ## Validated tables (output of `load_data`) -/

structure MenuRow where
  item_id : ℤ
  item_name : String
  category : String
  price : ℚ
  unitcost : ℚ
deriving DecidableEq, Repr

structure SaleRow where
  item_id : ℤ
  quantity : ℤ
  student_count : ℤ
  date : Option ℤ
deriving DecidableEq, Repr

instance : Inhabited MenuRow := ⟨⟨0, "", "", 0, 0⟩⟩

instance : Inhabited SaleRow := ⟨⟨0, 0, 0, none⟩⟩

instance : Inhabited RawMenuRow := ⟨⟨0, "", "", .bad, 0⟩⟩

instance : Inhabited RawSaleRow := ⟨⟨0, .bad, .bad, none⟩⟩

/-- The fatal errors of the pipeline: the two `KeyError`s of `load_data`,
the `MergeError` of the `validate="many_to_one"` merge, and pandas'
`ValueError` on assigning a column of the wrong length. -/
inductive PipelineError where
  | menuMissing (cols : List String)
  | salesMissing (cols : List String)
  | mergeError
  | lengthMismatch
deriving DecidableEq, Repr

/-- Python `str.strip()`: drop whitespace from both ends. -/
def pyStrip (s : String) : String :=
  ⟨((s.data.dropWhile Char.isWhitespace).reverse.dropWhile
      Char.isWhitespace).reverse⟩

/-- Python `str.lower()` (ASCII case folding, as in the data at hand). -/
def pyLower (s : String) : String := ⟨s.data.map Char.toLower⟩

/-- Header normalization `[c.strip().lower() for c in df.columns]` —
pipeline.py lines 18–19. -/
def normCols (cols : List String) : List String :=
  cols.map (fun c => pyLower (pyStrip c))

instance {ε α : Type} [DecidableEq ε] [DecidableEq α] :
    DecidableEq (Except ε α) := fun a b =>
  match a, b with
  | .ok x, .ok y =>
    if h : x = y then .isTrue (by rw [h]) else .isFalse (by
      intro hc; cases hc; exact h rfl)
  | .error x, .error y =>
    if h : x = y then .isTrue (by rw [h]) else .isFalse (by
      intro hc; cases hc; exact h rfl)
  | .ok _, .error _ => .isFalse (by intro hc; cases hc)
  | .error _, .ok _ => .isFalse (by intro hc; cases hc)

def needMenu : List String := ["item_id", "item_name", "category", "price"]

def needSales : List String := ["item_id", "quantity", "student_count", "date"]

/-- `sorted(need - set(columns))` — pipeline.py lines 24–25, 27, 29. -/
def missingOf (need cols : List String) : List String :=
  List.insertionSort (· ≤ ·) (need.filter (fun c => ¬ c ∈ cols))

/-- Per-row menu conversion of `load_data` (pipeline.py lines 32–34):
`price` is coerced, and `unitcost` is computed as `(price * 0.60).round(2)`
exactly when the normalized menu header has no `unitcost` column. -/
def menuConv (mcols : List String) (r : RawMenuRow) : MenuRow :=
  { item_id := r.item_id
    item_name := r.item_name
    category := r.category
    price := coerceQ r.price
    unitcost :=
      if "unitcost" ∈ mcols then r.unitcost
      else round2 (coerceQ r.price * (3/5)) }

/-- Per-row sales conversion of `load_data` (pipeline.py lines 36–38). -/
def saleConv (r : RawSaleRow) : SaleRow :=
  { item_id := r.item_id
    quantity := coerceInt r.quantity
    student_count := coerceInt r.student_count
    date := r.date }

/-- `load_data` — pipeline.py lines 12–40.  Checks the menu schema first,
then the sales schema, then applies the per-row conversions. -/
def load_data (rm : RawMenu) (rs : RawSales) :
    Except PipelineError (List MenuRow × List SaleRow) :=
  if missingOf needMenu (normCols rm.cols) ≠ [] then
    .error (.menuMissing (missingOf needMenu (normCols rm.cols)))
  else if missingOf needSales (normCols rs.cols) ≠ [] then
    .error (.salesMissing (missingOf needSales (normCols rs.cols)))
  else
    .ok (rm.rows.map (menuConv (normCols rm.cols)), rs.rows.map saleConv)

/-! ## Category normalization (pipeline.py lines 54–61) -/

/-- Python `str.title()` on a character list: an alphabetic character is
upper-cased when the previous character is not alphabetic, lower-cased
otherwise. -/
def titleAux : Bool → List Char → List Char
  | _, [] => []
  | prevAlpha, c :: cs =>
    (if c.isAlpha then (if prevAlpha then c.toLower else c.toUpper) else c) ::
      titleAux c.isAlpha cs

def pyTitle (s : String) : String := ⟨titleAux false s.data⟩

/-- `.str.replace("_", "-", regex=False)`: the pattern is the single
character `_`, so substring replacement is character replacement. -/
def replaceUnderscores (s : String) : String :=
  ⟨s.data.map (fun c => if c = '_' then '-' else c)⟩

/-- `.astype(str).str.strip().str.replace("_","-").str.title()` followed by
`.replace({"Non-Veg": "Non-veg"})`.  `astype(str)` renders a missing
category (unmatched join) as the literal string `"nan"`. -/
def normalizeCategory (c : Option String) : String :=
  let s := match c with | some s => s | none => "nan"
  let t := pyTitle (replaceUnderscores (pyStrip s))
  if t = "Non-Veg" then "Non-veg" else t

/-! ## Joined rows (pipeline.py lines 45–66) -/

/-- One row of the joined table `df`.  Sales columns are kept; menu columns
and the derived financials are `Option`s: `none` models the NaN that a left
join writes into every menu column of an unmatched sale. -/
structure JoinedRow where
  item_id : ℤ
  quantity : ℤ
  student_count : ℤ
  date : Option ℤ
  Item : Option String
  Category : String
  price : Option ℚ
  unitcost : Option ℚ
  Revenue : Option ℚ
  Cost : Option ℚ
  Profit : Option ℚ
deriving DecidableEq, Repr

instance : Inhabited JoinedRow :=
  ⟨⟨0, 0, 0, none, none, "", none, none, none, none, none⟩⟩

/-- Left join of one sale against the menu (`df = sales.merge(menu[...],
on="item_id", how="left")`) together with the row-wise financials
`Revenue = quantity * price`, `Cost = quantity * unitcost`,
`Profit = Revenue - Cost` (lines 64–66).  The `validate="many_to_one"`
check guarantees at most one match, so the first match is the match. -/
def joinRow (menu : List MenuRow) (s : SaleRow) : JoinedRow :=
  match menu.find? (fun m => m.item_id == s.item_id) with
  | some m =>
    { item_id := s.item_id
      quantity := s.quantity
      student_count := s.student_count
      date := s.date
      Item := some m.item_name
      Category := normalizeCategory (some m.category)
      price := some m.price
      unitcost := some m.unitcost
      Revenue := some ((s.quantity : ℚ) * m.price)
      Cost := some ((s.quantity : ℚ) * m.unitcost)
      Profit := some ((s.quantity : ℚ) * m.price - (s.quantity : ℚ) * m.unitcost) }
  | none =>
    { item_id := s.item_id
      quantity := s.quantity
      student_count := s.student_count
      date := s.date
      Item := none
      Category := normalizeCategory none
      price := none
      unitcost := none
      Revenue := none
      Cost := none
      Profit := none }

/-! ## Aggregates (pipeline.py lines 69–99) -/

structure DailyRow where
  Date : ℤ
  Revenue : ℚ
  Cost : ℚ
  Profit : ℚ
  Orders : ℤ
  UniqueStudents : ℤ
deriving DecidableEq, Repr

structure VnvRow where
  Date : ℤ
  Category : String
  Revenue : ℚ
  Qty : ℤ
deriving DecidableEq, Repr

/-- Pre-rank row of the `top_items` grouped table. -/
structure TopRow0 where
  Date : ℤ
  Item : String
  Revenue : ℚ
  Qty : ℤ
deriving DecidableEq, Repr

instance : Inhabited TopRow0 := ⟨⟨0, "", 0, 0⟩⟩

/-- Row of the final `top5` table.  `idx` records the row's position in the
grouped `top_items` result; it is specification metadata expressing the
"first-encountered order" tie-break contract and carries no information the
code does not determine. -/
structure TopRow where
  Date : ℤ
  Item : String
  Revenue : ℚ
  Qty : ℤ
  Rank : ℕ
  idx : ℕ
deriving DecidableEq, Repr

instance : Inhabited TopRow := ⟨⟨0, "", 0, 0, 0, 0⟩⟩

/-- `pandas` NaN-skipping sum of an optional column. -/
def osum (l : List (Option ℚ)) : ℚ := (l.filterMap id).sum

/-- The distinct non-null dates of `df`, ascending — the group keys of
`df.groupby("date")` (pandas sorts group keys and drops null keys). -/
def sortedDates (df : List JoinedRow) : List ℤ :=
  List.insertionSort (· ≤ ·) ((df.filterMap (fun r => r.date)).dedup)

/-- The daily row of date `d`: NaN-skipping sums of the financials plus
plain sums of quantities and student counts over the rows of date `d`. -/
def dailyRowOf (df : List JoinedRow) (d : ℤ) : DailyRow :=
  { Date := d
    Revenue := osum ((df.filter (fun r => r.date = some d)).map (fun r => r.Revenue))
    Cost := osum ((df.filter (fun r => r.date = some d)).map (fun r => r.Cost))
    Profit := osum ((df.filter (fun r => r.date = some d)).map (fun r => r.Profit))
    Orders := ((df.filter (fun r => r.date = some d)).map (fun r => r.quantity)).sum
    UniqueStudents :=
      ((df.filter (fun r => r.date = some d)).map (fun r => r.student_count)).sum }

/-- Daily KPIs (lines 69–80): group by date, summing the financials
(NaN-skipped), quantities and student counts. -/
def dailyOf (df : List JoinedRow) : List DailyRow :=
  (sortedDates df).map (dailyRowOf df)

/-- Lexicographic order on `(date, category)` / `(date, item)` keys. -/
def leIS (a b : ℤ × String) : Prop :=
  a.1 < b.1 ∨ (a.1 = b.1 ∧ a.2 ≤ b.2)

instance : DecidableRel leIS := fun a b => by
  unfold leIS; infer_instance

instance : IsTotal (ℤ × String) leIS :=
  ⟨fun a b => by
    rcases lt_trichotomy a.1 b.1 with h | h | h
    · exact Or.inl (Or.inl h)
    · rcases le_total a.2 b.2 with h2 | h2
      · exact Or.inl (Or.inr ⟨h, h2⟩)
      · exact Or.inr (Or.inr ⟨h.symm, h2⟩)
    · exact Or.inr (Or.inl h)⟩

instance : IsTrans (ℤ × String) leIS :=
  ⟨fun a b c hab hbc => by
    rcases hab with h1 | ⟨h1, h1'⟩ <;> rcases hbc with h2 | ⟨h2, h2'⟩
    · exact Or.inl (h1.trans h2)
    · exact Or.inl (h2 ▸ h1)
    · exact Or.inl (h1 ▸ h2)
    · exact Or.inr ⟨h1.trans h2, h1'.trans h2'⟩⟩

/-- Sort order of `vnv.sort_values(["Date","Revenue"], ascending=[True,False])`. -/
def leVnv (a b : VnvRow) : Prop :=
  a.Date < b.Date ∨ (a.Date = b.Date ∧ b.Revenue ≤ a.Revenue)

instance : DecidableRel leVnv := fun a b => by
  unfold leVnv; infer_instance

instance : IsTotal VnvRow leVnv :=
  ⟨fun a b => by
    rcases lt_trichotomy a.Date b.Date with h | h | h
    · exact Or.inl (Or.inl h)
    · rcases le_total b.Revenue a.Revenue with h2 | h2
      · exact Or.inl (Or.inr ⟨h, h2⟩)
      · exact Or.inr (Or.inr ⟨h.symm, h2⟩)
    · exact Or.inr (Or.inl h)⟩

instance : IsTrans VnvRow leVnv :=
  ⟨fun a b c hab hbc => by
    rcases hab with h1 | ⟨h1, h1'⟩ <;> rcases hbc with h2 | ⟨h2, h2'⟩
    · exact Or.inl (h1.trans h2)
    · exact Or.inl (h2 ▸ h1)
    · exact Or.inl (h1 ▸ h2)
    · exact Or.inr ⟨h1.trans h2, h2'.trans h1'⟩⟩

/-- The sorted distinct `(date, Category)` group keys of the Veg/Non-veg
split (null dates dropped by `groupby`; `Category` is a plain string,
never null). -/
def vnvKeys (df : List JoinedRow) : List (ℤ × String) :=
  List.insertionSort leIS
    ((df.filterMap (fun r => r.date.map (fun d => (d, r.Category)))).dedup)

/-- The Veg/Non-veg row of group key `k`. -/
def vnvRowOf (df : List JoinedRow) (k : ℤ × String) : VnvRow :=
  { Date := k.1
    Category := k.2
    Revenue := osum ((df.filter
        (fun r => r.date = some k.1 ∧ r.Category = k.2)).map (fun r => r.Revenue))
    Qty := ((df.filter
        (fun r => r.date = some k.1 ∧ r.Category = k.2)).map (fun r => r.quantity)).sum }

/-- Veg/Non-veg split (lines 83–89): group by `(date, Category)` (sorted
keys), then `sort_values(["Date","Revenue"], ascending=[True, False])`. -/
def vnvOf (df : List JoinedRow) : List VnvRow :=
  List.insertionSort leVnv ((vnvKeys df).map (vnvRowOf df))

/-- The sorted distinct `(date, Item)` group keys of the `top_items`
grouping; rows whose date or item is null are dropped by `groupby`. -/
def topKeys (df : List JoinedRow) : List (ℤ × String) :=
  List.insertionSort leIS
    ((df.filterMap (fun r =>
      match r.date, r.Item with
      | some d, some it => some (d, it)
      | _, _ => none)).dedup)

/-- The `top_items` row of group key `k`. -/
def topRowOf (df : List JoinedRow) (k : ℤ × String) : TopRow0 :=
  { Date := k.1
    Item := k.2
    Revenue := osum ((df.filter
        (fun r => r.date = some k.1 ∧ r.Item = some k.2)).map (fun r => r.Revenue))
    Qty := ((df.filter
        (fun r => r.date = some k.1 ∧ r.Item = some k.2)).map (fun r => r.quantity)).sum }

/-- Grouped `top_items` table (lines 92–97): group by `(date, Item)` with
sorted keys. -/
def groupTopItems (df : List JoinedRow) : List TopRow0 :=
  (topKeys df).map (topRowOf df)

/-- `top_items.groupby("Date")["Revenue"].rank(method="first",
ascending=False)` at position `i` of the grouped list `l`: one plus the
number of same-date rows with strictly larger revenue, plus the number of
earlier same-date rows with equal revenue ("first seen wins" among ties). -/
def rankOf (l : List TopRow0) (i : ℕ) : ℕ :=
  1 +
    ((Finset.range l.length).filter (fun j =>
      (l.getD j default).Date = (l.getD i default).Date ∧
      (l.getD i default).Revenue < (l.getD j default).Revenue)).card +
    ((Finset.range i).filter (fun j =>
      (l.getD j default).Date = (l.getD i default).Date ∧
      (l.getD j default).Revenue = (l.getD i default).Revenue)).card

/-- Row `i` of the grouped table annotated with its rank and position. -/
def mkTop (l : List TopRow0) (i : ℕ) : TopRow :=
  { Date := (l.getD i default).Date, Item := (l.getD i default).Item
    Revenue := (l.getD i default).Revenue, Qty := (l.getD i default).Qty
    Rank := rankOf l i, idx := i }

/-- The grouped table annotated with its rank column and its position. -/
def withRank (l : List TopRow0) : List TopRow :=
  (List.range l.length).map (mkTop l)

/-- Sort order of `sort_values(["Date","Rank"])`. -/
def leDR (a b : TopRow) : Prop :=
  a.Date < b.Date ∨ (a.Date = b.Date ∧ a.Rank ≤ b.Rank)

instance : DecidableRel leDR := fun a b => by
  unfold leDR; infer_instance

instance : IsTotal TopRow leDR :=
  ⟨fun a b => by
    rcases lt_trichotomy a.Date b.Date with h | h | h
    · exact Or.inl (Or.inl h)
    · rcases le_total a.Rank b.Rank with h2 | h2
      · exact Or.inl (Or.inr ⟨h, h2⟩)
      · exact Or.inr (Or.inr ⟨h.symm, h2⟩)
    · exact Or.inr (Or.inl h)⟩

instance : IsTrans TopRow leDR :=
  ⟨fun a b c hab hbc => by
    rcases hab with h1 | ⟨h1, h1'⟩ <;> rcases hbc with h2 | ⟨h2, h2'⟩
    · exact Or.inl (h1.trans h2)
    · exact Or.inl (h2 ▸ h1)
    · exact Or.inl (h1 ▸ h2)
    · exact Or.inr ⟨h1.trans h2, h1'.trans h2'⟩⟩

/-- `top5 = top_items[top_items["Rank"] <= 5].sort_values(["Date","Rank"])`
(lines 98–99). -/
def top5Of (l : List TopRow0) : List TopRow :=
  List.insertionSort leDR ((withRank l).filter (fun t => t.Rank ≤ 5))

/-- `pandas_phase` — pipeline.py lines 44–101.  The
`validate="many_to_one"` option makes the merge raise `MergeError` whenever
the menu's `item_id` keys are not unique, before anything is joined. -/
def pandas_phase (menu : List MenuRow) (sales : List SaleRow) :
    Except PipelineError
      (List JoinedRow × List DailyRow × List VnvRow × List TopRow) :=
  if (menu.map (fun m => m.item_id)).Nodup then
    let df := sales.map (joinRow menu)
    .ok (df, dailyOf df, vnvOf df, top5Of (groupTopItems df))
  else .error .mergeError

/-! ## Derived metrics (`numpy_phase`, pipeline.py lines 105–117) -/

/-- Daily row after `numpy_phase` added its two derived columns.
`AvgSpendPerStudent` is `none` where the division produced NaN;
`Cost_MA3` is `none` only in the (vacuous) empty-table branch. -/
structure DailyRow2 where
  Date : ℤ
  Revenue : ℚ
  Cost : ℚ
  Profit : ℚ
  Orders : ℤ
  UniqueStudents : ℤ
  AvgSpendPerStudent : Option ℚ
  Cost_MA3 : Option ℚ
deriving DecidableEq, Repr

instance : Inhabited DailyRow where
  default := ⟨0, 0, 0, 0, 0, 0⟩

instance : Inhabited DailyRow2 where
  default := ⟨0, 0, 0, 0, 0, 0, none, none⟩

/-- `daily["UniqueStudents"].replace(0, np.nan)` then
`np.round(rev / students, 2)` (lines 107–108): a zero student count becomes
NaN and the division propagates it; any other count divides normally. -/
def avgSpend (r : DailyRow) : Option ℚ :=
  if r.UniqueStudents = 0 then none
  else some (round2 (r.Revenue / (r.UniqueStudents : ℚ)))

/-- `np.pad(cost, (1, 1), mode="edge")`: duplicate the first and the last
entry once at the respective boundary. -/
def padEdge (cs : List ℚ) : List ℚ :=
  cs.take 1 ++ cs ++ cs.drop (cs.length - 1)

/-- Edge-padded centered 3-point moving average, rounded to 2 decimals:
`np.round(np.convolve(pad, np.ones(3)/3, mode="valid"), 2)`
(lines 112–114).  Only called on a non-empty series, as in the source. -/
def movingAvg3 (cs : List ℚ) : List ℚ :=
  (List.range ((padEdge cs).length - 2)).map (fun i =>
    round2 (((padEdge cs).getD i 0 + (padEdge cs).getD (i + 1) 0
      + (padEdge cs).getD (i + 2) 0) / 3))

/-- The `Cost_MA3` column: the convolution when `cost.size > 0`, otherwise
the scalar-NaN broadcast `daily["Cost_MA3"] = np.nan` (lines 111–116). -/
def maColumn (daily : List DailyRow) : List (Option ℚ) :=
  if 0 < daily.length then (movingAvg3 (daily.map (fun r => r.Cost))).map some
  else List.replicate daily.length none

/-- Row `i` of the daily table after `numpy_phase` attached its two
columns. -/
def npRow (daily : List DailyRow) (i : ℕ) : DailyRow2 :=
  let r := daily.getD i default
  { Date := r.Date, Revenue := r.Revenue, Cost := r.Cost
    Profit := r.Profit, Orders := r.Orders
    UniqueStudents := r.UniqueStudents
    AvgSpendPerStudent := avgSpend r
    Cost_MA3 := (maColumn daily).getD i none }

/-- `numpy_phase` — pipeline.py lines 105–117.  Assigning a column whose
length differs from the frame's would raise a pandas `ValueError`; the
guard models that. -/
def numpy_phase (daily : List DailyRow) : Except PipelineError (List DailyRow2) :=
  if (maColumn daily).length = daily.length then
    .ok ((List.range daily.length).map (npRow daily))
  else .error .lengthMismatch

/-! ## Renderer and orchestrator (pipeline.py lines 121–199) -/

/-- The bundle returned by `run_pipeline`.  The spreadsheet artifact is
modelled by its sheet-name list (the four fixed sheets plus one per
distinct non-null date of the joined table, lines 128–136); the chart
artifacts by their presence (`len(daily) > 0`, `len(vnv) > 0`,
lines 149, 162). -/
structure Bundle where
  df : List JoinedRow
  daily : List DailyRow2
  vnv : List VnvRow
  top5 : List TopRow
  sheetNames : List String
  daily_png : Bool
  vnv_png : Bool
deriving DecidableEq, Repr

/-- Sheet names of `build_excel_and_charts` (lines 128–136). -/
def sheetNamesOf (df : List JoinedRow) : List String :=
  ["Full_Joined", "Summary_Daily", "Veg_NonVeg_Ratio", "Top5_Items_Per_Day"]
    ++ (sortedDates df).map (fun d => toString d)

/-- `run_pipeline` — pipeline.py lines 186–199.  Any failure of an earlier
stage aborts the run: no bundle (and hence no artifact) is produced. -/
def run_pipeline (rm : RawMenu) (rs : RawSales) : Except PipelineError Bundle :=
  match load_data rm rs with
  | .error e => .error e
  | .ok (menu, sales) =>
    match pandas_phase menu sales with
    | .error e => .error e
    | .ok (df, daily, vnv, t5) =>
      match numpy_phase daily with
      | .error e => .error e
      | .ok daily2 =>
        .ok { df := df, daily := daily2, vnv := vnv, top5 := t5
              sheetNames := sheetNamesOf df
              daily_png := decide (0 < daily2.length)
              vnv_png := decide (0 < vnv.length) }

/-! ## Helper lemmas about `load_data` -/

lemma missingOf_sorted (need cols : List String) :
    (missingOf need cols).Sorted (· ≤ ·) :=
  List.sorted_insertionSort _ _

lemma mem_missingOf (need cols : List String) (c : String) :
    c ∈ missingOf need cols ↔ c ∈ need ∧ c ∉ cols := by
  unfold missingOf
  rw [List.mem_insertionSort, List.mem_filter]
  simp

lemma load_data_ok_inv {rm : RawMenu} {rs : RawSales} {menu : List MenuRow}
    {sales : List SaleRow} (h : load_data rm rs = .ok (menu, sales)) :
    missingOf needMenu (normCols rm.cols) = [] ∧
    missingOf needSales (normCols rs.cols) = [] ∧
    menu = rm.rows.map (menuConv (normCols rm.cols)) ∧
    sales = rs.rows.map saleConv := by
  unfold load_data at h
  by_cases h1 : missingOf needMenu (normCols rm.cols) = []
  · by_cases h2 : missingOf needSales (normCols rs.cols) = []
    · rw [if_neg (fun hc => hc h1), if_neg (fun hc => hc h2)] at h
      simp only [Except.ok.injEq, Prod.mk.injEq] at h
      exact ⟨h1, h2, h.1.symm, h.2.symm⟩
    · rw [if_neg (fun hc => hc h1), if_pos h2] at h
      exact absurd h (by simp)
  · rw [if_pos h1] at h
    exact absurd h (by simp)

lemma run_pipeline_error_of_load {rm : RawMenu} {rs : RawSales}
    {e : PipelineError} (h : load_data rm rs = .error e) :
    run_pipeline rm rs = .error e := by
  unfold run_pipeline
  rw [h]

/-! ## Claim C4 (corrected) -/

/-- Menu CSV missing its `price` column. -/
def rmBoth : RawMenu := ⟨["item_id", "item_name", "category"], []⟩

/-- Sales CSV missing its `date` column. -/
def rsBoth : RawSales := ⟨["item_id", "quantity", "student_count"], []⟩

/-- **C4, counterexample.**  When both tables have missing required columns
(`price` on the menu side, `date` on the sales side), `load_data` fails with
an error that enumerates only the menu's missing columns: the missing sales
column `date` is absent from the message, refuting "the error message
enumerates every missing column … including the case where both tables are
missing columns". -/
theorem load_data_schema_error_cex :
    "date" ∈ missingOf needSales (normCols rsBoth.cols) ∧
    load_data rmBoth rsBoth = .error (.menuMissing ["price"]) ∧
    "date" ∉ ["price"] := by
  refine ⟨by decide, by decide, by decide⟩

/-- **C4 (amended).**  If required columns are absent from either input,
`load_data` fails with a schema error before any aggregation (the whole run
aborts), and the message enumerates, in sorted order, every missing column
of the menu table when the menu table has any missing; otherwise every
missing column of the sales table.  (When both tables are missing columns,
only the menu's are enumerated.) -/
theorem load_data_schema_error (rm : RawMenu) (rs : RawSales)
    (h : missingOf needMenu (normCols rm.cols) ≠ [] ∨
         missingOf needSales (normCols rs.cols) ≠ []) :
    ∃ L : List String, L ≠ [] ∧ L.Sorted (· ≤ ·) ∧
      ((load_data rm rs = .error (.menuMissing L) ∧
          run_pipeline rm rs = .error (.menuMissing L) ∧
          ∀ c, c ∈ L ↔ c ∈ needMenu ∧ c ∉ normCols rm.cols) ∨
        (missingOf needMenu (normCols rm.cols) = [] ∧
          load_data rm rs = .error (.salesMissing L) ∧
          run_pipeline rm rs = .error (.salesMissing L) ∧
          ∀ c, c ∈ L ↔ c ∈ needSales ∧ c ∉ normCols rs.cols)) := by
  by_cases h1 : missingOf needMenu (normCols rm.cols) = []
  · have h2 : missingOf needSales (normCols rs.cols) ≠ [] :=
      h.resolve_left (fun hA => hA h1)
    have hld : load_data rm rs = .error (.salesMissing
        (missingOf needSales (normCols rs.cols))) := by
      unfold load_data
      rw [if_neg (fun hc => hc h1), if_pos h2]
    exact ⟨missingOf needSales (normCols rs.cols), h2, missingOf_sorted _ _,
      Or.inr ⟨h1, hld, run_pipeline_error_of_load hld,
        fun c => mem_missingOf _ _ c⟩⟩
  · have hld : load_data rm rs = .error (.menuMissing
        (missingOf needMenu (normCols rm.cols))) := by
      unfold load_data
      rw [if_pos h1]
    exact ⟨missingOf needMenu (normCols rm.cols), h1, missingOf_sorted _ _,
      Or.inl ⟨hld, run_pipeline_error_of_load hld,
        fun c => mem_missingOf _ _ c⟩⟩

/-- Witness for C4 (amended) at the concrete both-missing input. -/
theorem load_data_schema_error_witness :
    (missingOf needMenu (normCols rmBoth.cols) ≠ [] ∨
      missingOf needSales (normCols rsBoth.cols) ≠ []) ∧
    (∃ L : List String, L ≠ [] ∧ L.Sorted (· ≤ ·) ∧
      ((load_data rmBoth rsBoth = .error (.menuMissing L) ∧
          run_pipeline rmBoth rsBoth = .error (.menuMissing L) ∧
          ∀ c, c ∈ L ↔ c ∈ needMenu ∧ c ∉ normCols rmBoth.cols) ∨
        (missingOf needMenu (normCols rmBoth.cols) = [] ∧
          load_data rmBoth rsBoth = .error (.salesMissing L) ∧
          run_pipeline rmBoth rsBoth = .error (.salesMissing L) ∧
          ∀ c, c ∈ L ↔ c ∈ needSales ∧ c ∉ normCols rsBoth.cols))) :=
  ⟨Or.inl (by decide), load_data_schema_error rmBoth rsBoth (Or.inl (by decide))⟩

/-! ## Claim C5 (confirmed) -/

/-- A well-formed menu CSV: one item, `price` 10, no cost column. -/
def rmW : RawMenu :=
  ⟨["item_id", "item_name", "category", "price"], [⟨1, "Tea", "veg", .num 10, 0⟩]⟩

/-- A well-formed sales CSV: one sale of item 1. -/
def rsW : RawSales :=
  ⟨["item_id", "quantity", "student_count", "date"], [⟨1, .num 2, .num 4, some 0⟩]⟩

def menuW : List MenuRow := [⟨1, "Tea", "veg", 10, 6⟩]

def salesW : List SaleRow := [⟨1, 2, 4, some 0⟩]

/-- **C5.**  `load_data` sets each item's `unitcost` to
`round(price * 0.60, 2)` when the (normalized) menu header has no cost
column (`unitcost`), and uses the source's cost value as-is, without
recomputation, when the header declares one. -/
theorem unitcost_policy (rm : RawMenu) (rs : RawSales) (menu : List MenuRow)
    (sales : List SaleRow) (h : load_data rm rs = .ok (menu, sales)) :
    menu.length = rm.rows.length ∧
    ∀ i, i < rm.rows.length →
      ("unitcost" ∉ normCols rm.cols →
        (menu.getD i default).unitcost
          = round2 (coerceQ (rm.rows.getD i default).price * (3/5))) ∧
      ("unitcost" ∈ normCols rm.cols →
        (menu.getD i default).unitcost = (rm.rows.getD i default).unitcost) := by
  obtain ⟨-, -, hm, -⟩ := load_data_ok_inv h
  subst hm
  refine ⟨by simp, fun i hi => ?_⟩
  have hlen : i < (rm.rows.map (menuConv (normCols rm.cols))).length := by
    simpa using hi
  have hget : (rm.rows.map (menuConv (normCols rm.cols))).getD i default
      = menuConv (normCols rm.cols) (rm.rows.getD i default) := by
    rw [List.getD_eq_getElem _ _ hlen, List.getElem_map,
      List.getD_eq_getElem _ _ hi]
  rw [hget]
  constructor
  · intro hmem
    simp [menuConv, hmem]
  · intro hmem
    simp [menuConv, hmem]

/-- Witness for C5: item with `price` 10 and no cost column gets
`unitcost` 6.00. -/
theorem unitcost_policy_witness :
    load_data rmW rsW = .ok (menuW, salesW) ∧
    (menuW.getD 0 default).unitcost
      = round2 (coerceQ (rmW.rows.getD 0 default).price * (3/5)) ∧
    (menuW.getD 0 default).unitcost = 6 := by
  refine ⟨by with_unfolding_all rfl, ?_, by with_unfolding_all rfl⟩
  exact ((unitcost_policy rmW rsW menuW salesW (by with_unfolding_all rfl)).2 0
    (by decide)).1 (by decide)

/-! ## Claim C6 (corrected) -/

/-- Sales CSV carrying a parseable negative quantity. -/
def rsNeg : RawSales :=
  ⟨["item_id", "quantity", "student_count", "date"], [⟨1, .num (-3), .num 4, some 0⟩]⟩

def salesNeg : List SaleRow := [⟨1, -3, 4, some 0⟩]

/-- **C6, counterexample.**  A sales cell holding `-3` parses successfully
and passes through `load_data` unchanged: the resulting `quantity` is
negative, refuting "every value in the quantity and student_count columns
is a non-negative integer". -/
theorem coerce_nonneg_cex :
    load_data rmW rsNeg = .ok (menuW, salesNeg) ∧
    (salesNeg.getD 0 default).quantity < 0 := by
  refine ⟨by with_unfolding_all rfl, by decide⟩

/-- **C6 (amended).**  After `load_data`, every value in the `quantity` and
`student_count` columns is an integer (the truncation of the parsed
numeric), and every unparseable value in those columns has become 0.
(No non-negativity is enforced: parseable negative values pass through.) -/
theorem coerce_fill_zero (rm : RawMenu) (rs : RawSales) (menu : List MenuRow)
    (sales : List SaleRow) (h : load_data rm rs = .ok (menu, sales)) :
    sales.length = rs.rows.length ∧
    ∀ i, i < rs.rows.length →
      (sales.getD i default).quantity = coerceInt (rs.rows.getD i default).quantity ∧
      (sales.getD i default).student_count
        = coerceInt (rs.rows.getD i default).student_count ∧
      ((rs.rows.getD i default).quantity = .bad →
        (sales.getD i default).quantity = 0) ∧
      ((rs.rows.getD i default).student_count = .bad →
        (sales.getD i default).student_count = 0) := by
  obtain ⟨-, -, -, hs⟩ := load_data_ok_inv h
  subst hs
  refine ⟨by simp, fun i hi => ?_⟩
  have hlen : i < (rs.rows.map saleConv).length := by simpa using hi
  have hget : (rs.rows.map saleConv).getD i default
      = saleConv (rs.rows.getD i default) := by
    rw [List.getD_eq_getElem _ _ hlen, List.getElem_map,
      List.getD_eq_getElem _ _ hi]
  rw [hget]
  refine ⟨rfl, rfl, fun hb => ?_, fun hb => ?_⟩
  · simp only [saleConv, coerceInt]
    rw [hb]
  · simp only [saleConv, coerceInt]
    rw [hb]

/-- Sales CSV with an unparseable quantity cell. -/
def rsBad : RawSales :=
  ⟨["item_id", "quantity", "student_count", "date"], [⟨1, .bad, .num 4, some 0⟩]⟩

def salesBad : List SaleRow := [⟨1, 0, 4, some 0⟩]

/-- Witness for C6 (amended): the unparseable quantity became 0. -/
theorem coerce_fill_zero_witness :
    load_data rmW rsBad = .ok (menuW, salesBad) ∧
    (salesBad.getD 0 default).quantity = 0 := by
  refine ⟨by with_unfolding_all rfl, ?_⟩
  exact ((coerce_fill_zero rmW rsBad menuW salesBad (by with_unfolding_all rfl)).2 0
    (by decide)).2.2.1 rfl

/-! ## Helper lemmas about `pandas_phase` and `numpy_phase` -/

lemma pandas_phase_ok_inv {menu : List MenuRow} {sales : List SaleRow}
    {df : List JoinedRow} {daily : List DailyRow} {vnv : List VnvRow}
    {t5 : List TopRow}
    (h : pandas_phase menu sales = .ok (df, daily, vnv, t5)) :
    (menu.map (fun m => m.item_id)).Nodup ∧
    df = sales.map (joinRow menu) ∧ daily = dailyOf df ∧
    vnv = vnvOf df ∧ t5 = top5Of (groupTopItems df) := by
  unfold pandas_phase at h
  by_cases hnd : (menu.map (fun m => m.item_id)).Nodup
  · rw [if_pos hnd] at h
    simp only [Except.ok.injEq, Prod.mk.injEq] at h
    obtain ⟨h1, h2, h3, h4⟩ := h
    subst h1 h2 h3 h4
    exact ⟨hnd, rfl, rfl, rfl, rfl⟩
  · rw [if_neg hnd] at h
    exact absurd h (by simp)

lemma movingAvg3_length (cs : List ℚ) (h : cs ≠ []) :
    (movingAvg3 cs).length = cs.length := by
  have hpos : 0 < cs.length := List.length_pos.mpr h
  unfold movingAvg3 padEdge
  simp only [List.length_map, List.length_range, List.length_append,
    List.length_take, List.length_drop]
  omega

lemma maColumn_length (daily : List DailyRow) :
    (maColumn daily).length = daily.length := by
  unfold maColumn
  by_cases h : 0 < daily.length
  · rw [if_pos h, List.length_map, movingAvg3_length]
    · simp
    · intro hc
      have hl := congrArg List.length hc
      simp only [List.length_map, List.length_nil] at hl
      omega
  · rw [if_neg h]
    simp

lemma numpy_phase_eq (daily : List DailyRow) :
    numpy_phase daily = .ok ((List.range daily.length).map (npRow daily)) := by
  unfold numpy_phase
  rw [if_pos (maColumn_length daily)]

/-! ## Claim C3 (confirmed) -/

/-- **C3.**  If the validated menu table has two distinct rows with the same
`item_id`, `pandas_phase` raises the merge-cardinality error
(`validate="many_to_one"`), and the whole run aborts with that error: no
joined table, no aggregates, and no bundle (hence no spreadsheet or chart
artifact) is produced — in particular the duplicate is never resolved by
summation or by picking one match. -/
theorem duplicate_key_error (rm : RawMenu) (rs : RawSales)
    (menu : List MenuRow) (sales : List SaleRow)
    (hload : load_data rm rs = .ok (menu, sales))
    (i j : Fin menu.length) (hne : i ≠ j)
    (hdup : (menu.get i).item_id = (menu.get j).item_id) :
    pandas_phase menu sales = .error .mergeError ∧
    run_pipeline rm rs = .error .mergeError := by
  have hnd : ¬ (menu.map (fun m => m.item_id)).Nodup := by
    intro hn
    have hinj := List.nodup_iff_injective_get.mp hn
    have hi' : (i : ℕ) < (menu.map (fun m => m.item_id)).length := by
      simpa using i.isLt
    have hj' : (j : ℕ) < (menu.map (fun m => m.item_id)).length := by
      simpa using j.isLt
    have hget : (menu.map (fun m => m.item_id)).get ⟨i, hi'⟩
        = (menu.map (fun m => m.item_id)).get ⟨j, hj'⟩ := by
      rw [List.get_eq_getElem, List.get_eq_getElem, List.getElem_map,
        List.getElem_map]
      simpa [List.get_eq_getElem] using hdup
    have hfin := hinj hget
    exact hne (Fin.ext (by simpa using congrArg Fin.val hfin))
  have hp : pandas_phase menu sales = .error .mergeError := by
    unfold pandas_phase
    rw [if_neg hnd]
  refine ⟨hp, ?_⟩
  unfold run_pipeline
  simp only [hload, hp]

/-- Menu CSV with two rows sharing `item_id = 1`. -/
def rmDup : RawMenu :=
  ⟨["item_id", "item_name", "category", "price"],
    [⟨1, "Tea", "veg", .num 10, 0⟩, ⟨1, "Chai", "veg", .num 5, 0⟩]⟩

def menuDup : List MenuRow := [⟨1, "Tea", "veg", 10, 6⟩, ⟨1, "Chai", "veg", 5, 3⟩]

/-- Witness for C3 at a concrete duplicate-key menu. -/
theorem duplicate_key_error_witness :
    load_data rmDup rsW = .ok (menuDup, salesW) ∧
    pandas_phase menuDup salesW = .error .mergeError ∧
    run_pipeline rmDup rsW = .error .mergeError := by
  refine ⟨by with_unfolding_all rfl, ?_⟩
  exact duplicate_key_error rmDup rsW menuDup salesW
    (by with_unfolding_all rfl) ⟨0, by decide⟩ ⟨1, by decide⟩
    (by decide) (by decide)

/-! ## Claim C9 (confirmed) -/

/-- **C9.**  `numpy_phase` sets `AvgSpendPerStudent` to null (never
infinity, never an exception — the run continues) for each day whose
`UniqueStudents` is 0, and to `round(Revenue / UniqueStudents, 2)` for each
day with a positive `UniqueStudents`. -/
theorem avgspend_policy (daily : List DailyRow) (out : List DailyRow2)
    (h : numpy_phase daily = .ok out) :
    ∀ r ∈ out,
      (r.UniqueStudents = 0 → r.AvgSpendPerStudent = none) ∧
      (0 < r.UniqueStudents →
        r.AvgSpendPerStudent
          = some (round2 (r.Revenue / (r.UniqueStudents : ℚ)))) := by
  rw [numpy_phase_eq] at h
  injection h with h
  subst h
  intro r hr
  obtain ⟨i, _, rfl⟩ := List.mem_map.mp hr
  constructor
  · intro h0
    have h0' : (daily.getD i default).UniqueStudents = 0 := h0
    show avgSpend (daily.getD i default) = none
    unfold avgSpend
    rw [if_pos h0']
  · intro hpos
    have hpos' : ¬ (daily.getD i default).UniqueStudents = 0 := by
      intro hc
      have hpos2 : 0 < (daily.getD i default).UniqueStudents := hpos
      omega
    show avgSpend (daily.getD i default)
        = some (round2 ((daily.getD i default).Revenue
            / ((daily.getD i default).UniqueStudents : ℚ)))
    unfold avgSpend
    rw [if_neg hpos']

/-- Two-day daily aggregate: day 0 has 4 students, day 1 has 0. -/
def dailyW : List DailyRow := [⟨0, 20, 12, 8, 2, 4⟩, ⟨1, 10, 6, 4, 1, 0⟩]

def rowP : DailyRow2 := ⟨0, 20, 12, 8, 2, 4, some 5, some 10⟩

def rowZ : DailyRow2 := ⟨1, 10, 6, 4, 1, 0, none, some 8⟩

def outW : List DailyRow2 := [rowP, rowZ]

/-- Witness for C9: zero students gives null, four students give 5.00. -/
theorem avgspend_policy_witness :
    numpy_phase dailyW = .ok outW ∧
    ((rowZ.UniqueStudents = 0 → rowZ.AvgSpendPerStudent = none) ∧
      (0 < rowZ.UniqueStudents →
        rowZ.AvgSpendPerStudent
          = some (round2 (rowZ.Revenue / (rowZ.UniqueStudents : ℚ))))) ∧
    rowZ.AvgSpendPerStudent = none ∧
    rowP.AvgSpendPerStudent = some 5 := by
  refine ⟨by with_unfolding_all rfl, ?_, by with_unfolding_all rfl,
    by with_unfolding_all rfl⟩
  exact avgspend_policy dailyW outW (by with_unfolding_all rfl) rowZ
    (List.mem_cons_of_mem _ (List.mem_cons_self _ _))

/-! ## Claim C8 (confirmed) -/

/-- **C8.**  The `Cost_MA3` column produced by `numpy_phase` has exactly one
entry per row of the daily aggregate; each entry is the centered 3-point
mean, rounded to 2 decimals, of the cost series padded by duplicating its
first and last value once at each boundary; and on an empty daily aggregate
the output is the empty table (a column that is entirely null, vacuously). -/
theorem cost_ma3_shape (daily : List DailyRow) (out : List DailyRow2)
    (h : numpy_phase daily = .ok out) :
    out.length = daily.length ∧
    (daily = [] → out = []) ∧
    (∀ i, i < daily.length →
      (out.getD i default).Cost_MA3
        = some (round2 (((padEdge (daily.map (fun r => r.Cost))).getD i 0
            + (padEdge (daily.map (fun r => r.Cost))).getD (i + 1) 0
            + (padEdge (daily.map (fun r => r.Cost))).getD (i + 2) 0) / 3))) := by
  rw [numpy_phase_eq] at h
  injection h with h
  subst h
  refine ⟨by simp, fun hnil => by simp [hnil], fun i hi => ?_⟩
  have hlen : i < ((List.range daily.length).map (npRow daily)).length := by
    simpa using hi
  rw [List.getD_eq_getElem _ _ hlen, List.getElem_map, List.getElem_range]
  show (npRow daily i).Cost_MA3 = _
  have hnil : daily.map (fun r => r.Cost) ≠ [] := by
    intro hc
    have hl := congrArg List.length hc
    simp only [List.length_map, List.length_nil] at hl
    omega
  have hma : i < (movingAvg3 (daily.map (fun r => r.Cost))).length := by
    rw [movingAvg3_length _ hnil]
    simpa using hi
  have hcol : maColumn daily
      = (movingAvg3 (daily.map (fun r => r.Cost))).map some := by
    unfold maColumn
    rw [if_pos (by omega)]
  simp only [npRow, hcol]
  have hlen2 : i < ((movingAvg3 (daily.map (fun r => r.Cost))).map some).length := by
    simpa using hma
  rw [List.getD_eq_getElem _ _ hlen2, List.getElem_map]
  congr 1
  unfold movingAvg3
  have hr : i < (List.range ((padEdge (daily.map (fun r => r.Cost))).length - 2)).length := by
    unfold movingAvg3 at hma
    simpa using hma
  rw [List.getElem_map, List.getElem_range]

/-- One-day daily aggregate with cost 30. -/
def daily1 : List DailyRow := [⟨0, 20, 30, -10, 2, 4⟩]

def out1 : List DailyRow2 := [⟨0, 20, 30, -10, 2, 4, some 5, some 30⟩]

/-- Witness for C8: one day with cost 30 gets moving average 30.00, and the
empty aggregate yields the empty column. -/
theorem cost_ma3_shape_witness :
    numpy_phase daily1 = .ok out1 ∧
    out1.length = daily1.length ∧
    (out1.getD 0 default).Cost_MA3
      = some (round2 (((padEdge (daily1.map (fun r => r.Cost))).getD 0 0
          + (padEdge (daily1.map (fun r => r.Cost))).getD 1 0
          + (padEdge (daily1.map (fun r => r.Cost))).getD 2 0) / 3)) ∧
    (out1.getD 0 default).Cost_MA3 = some 30 ∧
    numpy_phase ([] : List DailyRow) = .ok [] := by
  have h : numpy_phase daily1 = .ok out1 := by with_unfolding_all rfl
  refine ⟨h, (cost_ma3_shape daily1 out1 h).1, ?_, by with_unfolding_all rfl,
    by with_unfolding_all rfl⟩
  exact (cost_ma3_shape daily1 out1 h).2.2 0 (by decide)

/-! ## Row-shape and sum lemmas for the financial invariant -/

lemma osum_cons (x : Option ℚ) (l : List (Option ℚ)) :
    osum (x :: l) = x.getD 0 + osum l := by
  cases x <;> simp [osum, List.filterMap_cons]

/-- Shape of the three financial columns of a joined row: all null
(unmatched sale) or all present with `Profit = Revenue - Cost`. -/
def RowOK (r : JoinedRow) : Prop :=
  (r.Revenue = none ∧ r.Cost = none ∧ r.Profit = none) ∨
  (∃ a b, r.Revenue = some a ∧ r.Cost = some b ∧ r.Profit = some (a - b))

lemma joinRow_rowOK (menu : List MenuRow) (s : SaleRow) :
    RowOK (joinRow menu s) := by
  unfold joinRow RowOK
  cases menu.find? (fun m => m.item_id == s.item_id) with
  | none => exact Or.inl ⟨rfl, rfl, rfl⟩
  | some m => exact Or.inr ⟨_, _, rfl, rfl, rfl⟩

lemma rowOK_profit {r : JoinedRow} (h : RowOK r) :
    r.Profit = Option.map₂ (fun a b => a - b) r.Revenue r.Cost := by
  rcases h with ⟨h1, h2, h3⟩ | ⟨a, b, h1, h2, h3⟩ <;> rw [h1, h2, h3] <;> rfl

lemma osum_profit (g : List JoinedRow) (hg : ∀ r ∈ g, RowOK r) :
    osum (g.map (fun r => r.Profit))
      = osum (g.map (fun r => r.Revenue)) - osum (g.map (fun r => r.Cost)) := by
  induction g with
  | nil => simp [osum]
  | cons r t ih =>
    have hr := hg r (List.mem_cons_self _ _)
    have ht := fun x hx => hg x (List.mem_cons_of_mem _ hx)
    rcases hr with ⟨h1, h2, h3⟩ | ⟨a, b, h1, h2, h3⟩ <;>
      simp only [List.map_cons, osum_cons, h1, h2, h3, ih ht,
        Option.getD_some, Option.getD_none] <;> ring

/-! ## Claim C1 (confirmed) -/

/-- **C1.**  For every validated input pair that joins successfully, every
row of the joined table satisfies `Profit = Revenue - Cost` exactly (with
all three null together on unmatched sales), and every row of the daily
aggregate also satisfies `Profit = Revenue - Cost` exactly. -/
theorem profit_invariant (menu : List MenuRow) (sales : List SaleRow)
    (df : List JoinedRow) (daily : List DailyRow) (vnv : List VnvRow)
    (t5 : List TopRow)
    (h : pandas_phase menu sales = .ok (df, daily, vnv, t5)) :
    (∀ r ∈ df,
      r.Profit = Option.map₂ (fun a b => a - b) r.Revenue r.Cost) ∧
    (∀ dr ∈ daily, dr.Profit = dr.Revenue - dr.Cost) := by
  obtain ⟨-, hdf, hdaily, -, -⟩ := pandas_phase_ok_inv h
  subst hdf
  subst hdaily
  constructor
  · intro r hr
    obtain ⟨s, -, rfl⟩ := List.mem_map.mp hr
    exact rowOK_profit (joinRow_rowOK menu s)
  · intro dr hdr
    obtain ⟨d, -, rfl⟩ := List.mem_map.mp hdr
    show osum _ = osum _ - osum _
    apply osum_profit
    intro r hrg
    have hrdf : r ∈ sales.map (joinRow menu) := List.mem_of_mem_filter hrg
    obtain ⟨s, -, rfl⟩ := List.mem_map.mp hrdf
    exact joinRow_rowOK menu s

def dfW : List JoinedRow :=
  [⟨1, 2, 4, some 0, some "Tea", "Veg", some 10, some 6, some 20, some 12, some 8⟩]

def dailyD : List DailyRow := [⟨0, 20, 12, 8, 2, 4⟩]

def vnvW : List VnvRow := [⟨0, "Veg", 20, 2⟩]

def t5W : List TopRow := [⟨0, "Tea", 20, 2, 1, 0⟩]

/-- Witness for C1 on Scenario A's tables (revenue 20, cost 12, profit 8). -/
theorem profit_invariant_witness :
    pandas_phase menuW salesW = .ok (dfW, dailyD, vnvW, t5W) ∧
    (dfW.getD 0 default).Profit
      = Option.map₂ (fun a b => a - b) (dfW.getD 0 default).Revenue
          (dfW.getD 0 default).Cost ∧
    (dailyD.getD 0 default).Profit
      = (dailyD.getD 0 default).Revenue - (dailyD.getD 0 default).Cost := by
  have h : pandas_phase menuW salesW = .ok (dfW, dailyD, vnvW, t5W) := by
    with_unfolding_all rfl
  refine ⟨h, ?_, ?_⟩
  · exact (profit_invariant menuW salesW dfW dailyD vnvW t5W h).1 _
      (List.mem_cons_self _ _)
  · exact (profit_invariant menuW salesW dfW dailyD vnvW t5W h).2 _
      (List.mem_cons_self _ _)

/-! ## Partition lemmas: daily groups partition the non-null-date rows -/

lemma filter_filter_of_imp {α : Type} (p q : α → Bool) (L : List α)
    (h : ∀ x ∈ L, p x = true → q x = true) :
    (L.filter q).filter p = L.filter p := by
  induction L with
  | nil => rfl
  | cons x t ih =>
    have ht : ∀ y ∈ t, p y = true → q y = true :=
      fun y hy => h y (List.mem_cons_of_mem _ hy)
    by_cases hp : p x = true
    · have hq := h x (List.mem_cons_self _ _) hp
      simp [List.filter_cons, hp, hq, ih ht]
    · by_cases hq : q x = true
      · simp [List.filter_cons, hp, hq, ih ht]
      · simp [List.filter_cons, hp, hq, ih ht]

lemma osum_split (f : JoinedRow → Option ℚ) (d : ℤ) (df : List JoinedRow) :
    osum ((df.filter (fun r => r.date = some d)).map f)
      + osum (((df.filter (fun r => ¬ r.date = some d)).filter
          (fun r => r.date.isSome)).map f)
      = osum ((df.filter (fun r => r.date.isSome)).map f) := by
  induction df with
  | nil => simp [osum]
  | cons r t ih =>
    by_cases h1 : r.date = some d
    · have h2 : r.date.isSome = true := by rw [h1]; rfl
      rw [List.filter_cons_of_pos (p := fun x : JoinedRow => decide (x.date = some d))
          (by simpa using h1),
        List.filter_cons_of_neg (p := fun x : JoinedRow => decide (¬ x.date = some d))
          (by simpa using h1),
        List.filter_cons_of_pos (p := fun x : JoinedRow => x.date.isSome) h2,
        List.map_cons, List.map_cons, osum_cons, osum_cons, add_assoc, ih]
    · by_cases h2 : r.date.isSome = true
      · rw [List.filter_cons_of_neg (p := fun x : JoinedRow => decide (x.date = some d))
            (by simpa using h1),
          List.filter_cons_of_pos (p := fun x : JoinedRow => decide (¬ x.date = some d))
            (by simpa using h1),
          List.filter_cons_of_pos (p := fun x : JoinedRow => x.date.isSome) h2,
          List.filter_cons_of_pos (p := fun x : JoinedRow => x.date.isSome) h2,
          List.map_cons, List.map_cons, osum_cons, osum_cons, add_left_comm, ih]
      · rw [List.filter_cons_of_neg (p := fun x : JoinedRow => decide (x.date = some d))
            (by simpa using h1),
          List.filter_cons_of_pos (p := fun x : JoinedRow => decide (¬ x.date = some d))
            (by simpa using h1),
          List.filter_cons_of_neg (p := fun x : JoinedRow => x.date.isSome) h2,
          List.filter_cons_of_neg (p := fun x : JoinedRow => x.date.isSome) h2]
        exact ih

lemma sum_partition (f : JoinedRow → Option ℚ) (D : List ℤ) :
    ∀ df : List JoinedRow, D.Nodup →
      (∀ r ∈ df, ∀ d, r.date = some d → d ∈ D) →
      (D.map (fun d =>
        osum ((df.filter (fun r => r.date = some d)).map f))).sum
        = osum ((df.filter (fun r => r.date.isSome)).map f) := by
  induction D with
  | nil =>
    intro df _ hcov
    have hnil : df.filter (fun r => r.date.isSome) = [] := by
      rw [List.filter_eq_nil_iff]
      intro r hr hsome
      obtain ⟨d, hd⟩ := Option.isSome_iff_exists.mp (by simpa using hsome)
      exact absurd (hcov r hr d hd) (List.not_mem_nil d)
    simp [hnil, osum]
  | cons d D ih =>
    intro df hnd hcov
    have hd_notin : d ∉ D := (List.nodup_cons.mp hnd).1
    have hnd' : D.Nodup := (List.nodup_cons.mp hnd).2
    have hterm : ∀ d' ∈ D,
        (df.filter (fun r => ¬ r.date = some d)).filter
            (fun r => r.date = some d')
          = df.filter (fun r => r.date = some d') := by
      intro d' hd'
      apply filter_filter_of_imp
      intro x _ hx
      have hx' : x.date = some d' := of_decide_eq_true hx
      have hdd' : d' ≠ d := fun hc => hd_notin (hc ▸ hd')
      simp [hx', hdd']
    have hcov' : ∀ r ∈ df.filter (fun r => ¬ r.date = some d),
        ∀ d'', r.date = some d'' → d'' ∈ D := by
      intro r hr d'' hdate
      have hrdf : r ∈ df := List.mem_of_mem_filter hr
      have hne : ¬ r.date = some d := by
        have := List.of_mem_filter hr
        simpa using this
      rcases List.mem_cons.mp (hcov r hrdf d'' hdate) with hc | hc
      · exact absurd (hc ▸ hdate) hne
      · exact hc
    rw [List.map_cons, List.sum_cons]
    have hmap : (D.map (fun d' =>
        osum ((df.filter (fun r => r.date = some d')).map f))).sum
        = (D.map (fun d' =>
          osum (((df.filter (fun r => ¬ r.date = some d)).filter
              (fun r => r.date = some d')).map f))).sum := by
      congr 1
      exact (List.map_congr_left (fun d' hd' => by rw [hterm d' hd'])).symm
    rw [hmap, ih _ hnd' hcov']
    exact osum_split f d df

lemma sortedDates_nodup (df : List JoinedRow) : (sortedDates df).Nodup := by
  unfold sortedDates
  exact (List.perm_insertionSort _ _).symm.nodup (List.nodup_dedup _)

lemma mem_sortedDates {df : List JoinedRow} {r : JoinedRow} {d : ℤ}
    (hr : r ∈ df) (hd : r.date = some d) : d ∈ sortedDates df := by
  unfold sortedDates
  rw [List.mem_insertionSort, List.mem_dedup, List.mem_filterMap]
  exact ⟨r, hr, hd⟩

lemma daily_field_sum (df : List JoinedRow) (f : JoinedRow → Option ℚ) :
    ((sortedDates df).map (fun d =>
      osum ((df.filter (fun r => r.date = some d)).map f))).sum
      = osum ((df.filter (fun r => r.date.isSome)).map f) :=
  sum_partition f (sortedDates df) df (sortedDates_nodup df)
    (fun r hr d hd => mem_sortedDates hr hd)

/-! ## Claim C2 (corrected) -/

/-- Sales CSV whose one sale has an unparseable (null) date. -/
def salesNull : List SaleRow := [⟨1, 1, 2, none⟩]

def dfNull : List JoinedRow :=
  [⟨1, 1, 2, none, some "Tea", "Veg", some 10, some 6, some 10, some 6, some 4⟩]

/-- **C2, counterexample.**  A joined row with a null date is counted in the
joined table's revenue sum but belongs to no daily group: with one null-date
sale of revenue 10 the daily aggregate is empty (sum 0) while the joined
revenue sum is 10, refuting the claimed equality for every joined table. -/
theorem daily_sum_cex :
    pandas_phase menuW salesNull = .ok (dfNull, [], [], []) ∧
    ¬ ((([] : List DailyRow).map (fun dr => dr.Revenue)).sum
        = osum (dfNull.map (fun r => r.Revenue))) := by
  constructor
  · with_unfolding_all rfl
  · intro hc
    rw [show (([] : List DailyRow).map (fun dr => dr.Revenue)).sum = 0
        from rfl] at hc
    rw [show osum (dfNull.map (fun r => r.Revenue)) = 10 from by
        with_unfolding_all rfl] at hc
    norm_num at hc

/-- **C2 (amended).**  For every joined table produced by `pandas_phase`,
the sum of `Revenue` over the daily aggregate equals the sum of `Revenue`
over the joined rows whose date is non-null, and likewise for `Cost` and
`Profit`: the daily aggregate is a lossless partition by date of the joined
rows that have a date (rows whose date failed to parse are excluded by the
grouping). -/
theorem daily_sum_equals_joined (menu : List MenuRow) (sales : List SaleRow)
    (df : List JoinedRow) (daily : List DailyRow) (vnv : List VnvRow)
    (t5 : List TopRow)
    (h : pandas_phase menu sales = .ok (df, daily, vnv, t5)) :
    (daily.map (fun dr => dr.Revenue)).sum
        = osum ((df.filter (fun r => r.date.isSome)).map (fun r => r.Revenue)) ∧
    (daily.map (fun dr => dr.Cost)).sum
        = osum ((df.filter (fun r => r.date.isSome)).map (fun r => r.Cost)) ∧
    (daily.map (fun dr => dr.Profit)).sum
        = osum ((df.filter (fun r => r.date.isSome)).map (fun r => r.Profit)) := by
  obtain ⟨-, -, hdaily, -, -⟩ := pandas_phase_ok_inv h
  subst hdaily
  refine ⟨?_, ?_, ?_⟩
  · unfold dailyOf
    rw [List.map_map]
    exact daily_field_sum df (fun r => r.Revenue)
  · unfold dailyOf
    rw [List.map_map]
    exact daily_field_sum df (fun r => r.Cost)
  · unfold dailyOf
    rw [List.map_map]
    exact daily_field_sum df (fun r => r.Profit)

/-- Witness for C2 (amended): with a null-date sale present, the daily sums
agree with the joined sums restricted to non-null dates. -/
theorem daily_sum_equals_joined_witness :
    pandas_phase menuW salesNull = .ok (dfNull, [], [], []) ∧
    ((([] : List DailyRow).map (fun dr => dr.Revenue)).sum
        = osum ((dfNull.filter (fun r => r.date.isSome)).map
            (fun r => r.Revenue))) := by
  have h : pandas_phase menuW salesNull = .ok (dfNull, [], [], []) := by
    with_unfolding_all rfl
  exact ⟨h, (daily_sum_equals_joined menuW salesNull dfNull [] [] [] h).1⟩

/-! ## Null-date invariance of the three aggregates -/

lemma filterMap_dropNone {β : Type} (f : JoinedRow → Option β)
    (hf : ∀ r, r.date = none → f r = none) (df : List JoinedRow) :
    (df.filter (fun r => r.date.isSome)).filterMap f = df.filterMap f := by
  induction df with
  | nil => rfl
  | cons r t ih =>
    by_cases h : r.date.isSome = true
    · rw [List.filter_cons_of_pos (p := fun x : JoinedRow => x.date.isSome) h,
        List.filterMap_cons, List.filterMap_cons]
      cases f r <;> rw [ih]
    · have hnone : r.date = none := by
        cases hd : r.date
        · rfl
        · rw [hd] at h
          exact absurd rfl h
      rw [List.filter_cons_of_neg (p := fun x : JoinedRow => x.date.isSome) h,
        List.filterMap_cons, hf r hnone, ih]

lemma filter_dropNone (p : JoinedRow → Bool)
    (hp : ∀ r, p r = true → r.date.isSome = true) (df : List JoinedRow) :
    (df.filter (fun r => r.date.isSome)).filter p = df.filter p :=
  filter_filter_of_imp p _ df (fun x _ hx => hp x hx)

lemma dailyOf_dropNone (df : List JoinedRow) :
    dailyOf (df.filter (fun r => r.date.isSome)) = dailyOf df := by
  unfold dailyOf
  have hdates : sortedDates (df.filter (fun r => r.date.isSome))
      = sortedDates df := by
    unfold sortedDates
    rw [filterMap_dropNone (fun r => r.date) (fun r h => h) df]
  rw [hdates]
  apply List.map_congr_left
  intro d _
  unfold dailyRowOf
  rw [filter_dropNone (fun x : JoinedRow => decide (x.date = some d))
    (fun r hr => by rw [of_decide_eq_true hr]; rfl) df]

lemma vnvOf_dropNone (df : List JoinedRow) :
    vnvOf (df.filter (fun r => r.date.isSome)) = vnvOf df := by
  unfold vnvOf
  have hkeys : vnvKeys (df.filter (fun r => r.date.isSome)) = vnvKeys df := by
    unfold vnvKeys
    rw [filterMap_dropNone _ (fun r h => by rw [h]; rfl) df]
  rw [hkeys]
  congr 1
  apply List.map_congr_left
  intro k _
  unfold vnvRowOf
  rw [filter_dropNone
    (fun x : JoinedRow => decide (x.date = some k.1 ∧ x.Category = k.2))
    (fun r hr => by rw [(of_decide_eq_true hr).1]; rfl) df]

lemma groupTopItems_dropNone (df : List JoinedRow) :
    groupTopItems (df.filter (fun r => r.date.isSome)) = groupTopItems df := by
  unfold groupTopItems
  have hkeys : topKeys (df.filter (fun r => r.date.isSome)) = topKeys df := by
    unfold topKeys
    rw [filterMap_dropNone (fun r => match r.date, r.Item with
      | some d, some it => some (d, it)
      | _, _ => none) (fun r h => by cases hI : r.Item <;> simp only [h, hI]) df]
  rw [hkeys]
  apply List.map_congr_left
  intro k _
  unfold topRowOf
  rw [filter_dropNone
    (fun x : JoinedRow => decide (x.date = some k.1 ∧ x.Item = some k.2))
    (fun r hr => by rw [(of_decide_eq_true hr).1]; rfl) df]

lemma joinRow_date (menu : List MenuRow) (s : SaleRow) :
    (joinRow menu s).date = s.date := by
  unfold joinRow
  cases menu.find? (fun m => m.item_id == s.item_id) <;> rfl

/-! ## Claim C10 (confirmed) -/

/-- **C10.**  Sales rows whose date failed to parse (null date) are retained
in the full joined table — one joined row per sale, keeping its (null)
date — but are excluded from all three date-keyed aggregates: the daily
KPIs, the category split and the top-items table are exactly those computed
from the joined rows with a non-null date, because grouping by date drops
null keys. -/
theorem null_date_policy (menu : List MenuRow) (sales : List SaleRow)
    (df : List JoinedRow) (daily : List DailyRow) (vnv : List VnvRow)
    (t5 : List TopRow)
    (h : pandas_phase menu sales = .ok (df, daily, vnv, t5)) :
    df.length = sales.length ∧
    (∀ i, i < sales.length →
      (df.getD i default).date = (sales.getD i default).date) ∧
    daily = dailyOf (df.filter (fun r => r.date.isSome)) ∧
    vnv = vnvOf (df.filter (fun r => r.date.isSome)) ∧
    t5 = top5Of (groupTopItems (df.filter (fun r => r.date.isSome))) := by
  obtain ⟨-, hdf, hdaily, hvnv, ht5⟩ := pandas_phase_ok_inv h
  subst hdf
  subst hdaily
  subst hvnv
  subst ht5
  refine ⟨by simp, fun i hi => ?_, ?_, ?_, ?_⟩
  · have hlen : i < (sales.map (joinRow menu)).length := by simpa using hi
    rw [List.getD_eq_getElem _ _ hlen, List.getElem_map,
      List.getD_eq_getElem _ _ hi]
    exact joinRow_date menu _
  · rw [dailyOf_dropNone]
  · rw [vnvOf_dropNone]
  · rw [groupTopItems_dropNone]

/-- Sales with one dated and one null-date record. -/
def salesMix : List SaleRow := [⟨1, 2, 4, some 0⟩, ⟨1, 1, 2, none⟩]

def dfMix : List JoinedRow :=
  [⟨1, 2, 4, some 0, some "Tea", "Veg", some 10, some 6, some 20, some 12, some 8⟩,
   ⟨1, 1, 2, none, some "Tea", "Veg", some 10, some 6, some 10, some 6, some 4⟩]

/-- Witness for C10: the null-date row is retained in the joined table but
all three aggregates equal the ones computed without it. -/
theorem null_date_policy_witness :
    pandas_phase menuW salesMix = .ok (dfMix, dailyD, vnvW, t5W) ∧
    (dfMix.getD 1 default).date = (salesMix.getD 1 default).date ∧
    dailyD = dailyOf (dfMix.filter (fun r => r.date.isSome)) := by
  have h : pandas_phase menuW salesMix = .ok (dfMix, dailyD, vnvW, t5W) := by
    with_unfolding_all rfl
  exact ⟨h, (null_date_policy menuW salesMix dfMix dailyD vnvW t5W h).2.1 1
    (by decide), (null_date_policy menuW salesMix dfMix dailyD vnvW t5W h).2.2.1⟩

/-! ## Rank lemmas for the top-5 contract

`rankOf` is `rank(method="first", ascending=False)` within a date group:
the lemmas below show it is strictly monotone along the order
"larger revenue first, ties by position". -/

lemma rankOf_pos (l : List TopRow0) (i : ℕ) : 1 ≤ rankOf l i := by
  unfold rankOf
  omega

lemma rankOf_lt_rankOf (l : List TopRow0) {i j : ℕ}
    (hi : i < l.length) (hj : j < l.length)
    (hd : (l.getD i default).Date = (l.getD j default).Date)
    (hcase : (l.getD j default).Revenue < (l.getD i default).Revenue ∨
      ((l.getD i default).Revenue = (l.getD j default).Revenue ∧ i < j)) :
    rankOf l i < rankOf l j := by
  unfold rankOf
  rcases hcase with hR | ⟨hR, hij⟩
  · have hsub : ((Finset.range l.length).filter (fun k =>
          (l.getD k default).Date = (l.getD i default).Date ∧
          (l.getD i default).Revenue < (l.getD k default).Revenue))
        ∪ ((Finset.range l.length).filter (fun k =>
          (l.getD k default).Date = (l.getD i default).Date ∧
          (l.getD k default).Revenue = (l.getD i default).Revenue))
        ⊆ (Finset.range l.length).filter (fun k =>
          (l.getD k default).Date = (l.getD j default).Date ∧
          (l.getD j default).Revenue < (l.getD k default).Revenue) := by
      intro k hk
      rcases Finset.mem_union.mp hk with hk | hk <;>
        obtain ⟨hkr, hkd, hkR⟩ := Finset.mem_filter.mp hk
      · exact Finset.mem_filter.mpr ⟨hkr, hkd.trans hd, hR.trans hkR⟩
      · exact Finset.mem_filter.mpr ⟨hkr, hkd.trans hd, by rw [hkR]; exact hR⟩
    have hdisj : Disjoint
        ((Finset.range l.length).filter (fun k =>
          (l.getD k default).Date = (l.getD i default).Date ∧
          (l.getD i default).Revenue < (l.getD k default).Revenue))
        ((Finset.range l.length).filter (fun k =>
          (l.getD k default).Date = (l.getD i default).Date ∧
          (l.getD k default).Revenue = (l.getD i default).Revenue)) := by
      rw [Finset.disjoint_left]
      intro k h1 h2
      have hx := (Finset.mem_filter.mp h1).2.2
      have hy := (Finset.mem_filter.mp h2).2.2
      rw [hy] at hx
      exact lt_irrefl _ hx
    have hcard1 := Finset.card_le_card hsub
    rw [Finset.card_union_of_disjoint hdisj] at hcard1
    have hins : insert i ((Finset.range i).filter (fun k =>
          (l.getD k default).Date = (l.getD i default).Date ∧
          (l.getD k default).Revenue = (l.getD i default).Revenue))
        ⊆ (Finset.range l.length).filter (fun k =>
          (l.getD k default).Date = (l.getD i default).Date ∧
          (l.getD k default).Revenue = (l.getD i default).Revenue) := by
      intro k hk
      rcases Finset.mem_insert.mp hk with rfl | hk
      · exact Finset.mem_filter.mpr ⟨Finset.mem_range.mpr hi, rfl, rfl⟩
      · obtain ⟨hkr, hkp⟩ := Finset.mem_filter.mp hk
        exact Finset.mem_filter.mpr
          ⟨Finset.mem_range.mpr (lt_trans (Finset.mem_range.mp hkr) hi), hkp⟩
    have hnotmem : i ∉ (Finset.range i).filter (fun k =>
        (l.getD k default).Date = (l.getD i default).Date ∧
        (l.getD k default).Revenue = (l.getD i default).Revenue) := by
      intro hc
      exact absurd (Finset.mem_range.mp (Finset.mem_filter.mp hc).1)
        (lt_irrefl i)
    have hcard2 := Finset.card_le_card hins
    rw [Finset.card_insert_of_not_mem hnotmem] at hcard2
    omega
  · have hAeq : ((Finset.range l.length).filter (fun k =>
          (l.getD k default).Date = (l.getD i default).Date ∧
          (l.getD i default).Revenue < (l.getD k default).Revenue))
        = ((Finset.range l.length).filter (fun k =>
          (l.getD k default).Date = (l.getD j default).Date ∧
          (l.getD j default).Revenue < (l.getD k default).Revenue)) := by
      apply Finset.filter_congr
      intro k _
      rw [hd, hR]
    have hins : insert i ((Finset.range i).filter (fun k =>
          (l.getD k default).Date = (l.getD i default).Date ∧
          (l.getD k default).Revenue = (l.getD i default).Revenue))
        ⊆ (Finset.range j).filter (fun k =>
          (l.getD k default).Date = (l.getD j default).Date ∧
          (l.getD k default).Revenue = (l.getD j default).Revenue) := by
      intro k hk
      rcases Finset.mem_insert.mp hk with rfl | hk
      · exact Finset.mem_filter.mpr ⟨Finset.mem_range.mpr hij, hd, hR⟩
      · obtain ⟨hkr, hk1, hk2⟩ := Finset.mem_filter.mp hk
        exact Finset.mem_filter.mpr ⟨Finset.mem_range.mpr
          (lt_trans (Finset.mem_range.mp hkr) hij), hk1.trans hd, hk2.trans hR⟩
    have hnotmem : i ∉ (Finset.range i).filter (fun k =>
        (l.getD k default).Date = (l.getD i default).Date ∧
        (l.getD k default).Revenue = (l.getD i default).Revenue) := by
      intro hc
      exact absurd (Finset.mem_range.mp (Finset.mem_filter.mp hc).1)
        (lt_irrefl i)
    have hcard := Finset.card_le_card hins
    rw [Finset.card_insert_of_not_mem hnotmem] at hcard
    rw [hAeq]
    omega

lemma rankOf_ne (l : List TopRow0) {i j : ℕ}
    (hi : i < l.length) (hj : j < l.length)
    (hd : (l.getD i default).Date = (l.getD j default).Date)
    (hne : i ≠ j) : rankOf l i ≠ rankOf l j := by
  rcases lt_trichotomy (l.getD i default).Revenue (l.getD j default).Revenue
    with hR | hR | hR
  · exact (rankOf_lt_rankOf l hj hi hd.symm (Or.inl hR)).ne'
  · rcases Nat.lt_or_ge i j with hij | hij
    · exact (rankOf_lt_rankOf l hi hj hd (Or.inr ⟨hR, hij⟩)).ne
    · have hji : j < i := lt_of_le_of_ne hij (Ne.symm hne)
      exact (rankOf_lt_rankOf l hj hi hd.symm (Or.inr ⟨hR.symm, hji⟩)).ne'
  · exact (rankOf_lt_rankOf l hi hj hd (Or.inl hR)).ne

lemma rankOf_lt_imp (l : List TopRow0) {i j : ℕ}
    (hi : i < l.length) (hj : j < l.length)
    (hd : (l.getD i default).Date = (l.getD j default).Date)
    (hlt : rankOf l i < rankOf l j) :
    (l.getD j default).Revenue ≤ (l.getD i default).Revenue ∧
    ((l.getD i default).Revenue = (l.getD j default).Revenue → i < j) := by
  constructor
  · by_contra hc
    push_neg at hc
    exact lt_asymm hlt (rankOf_lt_rankOf l hj hi hd.symm (Or.inl hc))
  · intro hR
    by_contra hc
    push_neg at hc
    rcases eq_or_lt_of_le hc with he | hlt2
    · rw [he] at hlt
      exact lt_irrefl _ hlt
    · exact lt_asymm hlt (rankOf_lt_rankOf l hj hi hd.symm
        (Or.inr ⟨hR.symm, hlt2⟩))

lemma mem_withRank {l : List TopRow0} {t : TopRow} (h : t ∈ withRank l) :
    t.idx < l.length ∧ t = mkTop l t.idx := by
  unfold withRank at h
  obtain ⟨i, hi, rfl⟩ := List.mem_map.mp h
  exact ⟨List.mem_range.mp hi, rfl⟩

lemma mem_top5Of {l : List TopRow0} {t : TopRow} (h : t ∈ top5Of l) :
    t.idx < l.length ∧ t = mkTop l t.idx ∧ t.Rank ≤ 5 := by
  unfold top5Of at h
  rw [List.mem_insertionSort] at h
  obtain ⟨hm, hr⟩ := List.mem_filter.mp h
  obtain ⟨h1, h2⟩ := mem_withRank hm
  exact ⟨h1, h2, by simpa using hr⟩

lemma length_le_five_of_ranks (l : List TopRow0) (d : ℤ) (L : List ℕ)
    (hnd : L.Nodup)
    (hmem : ∀ i ∈ L, i < l.length ∧ (l.getD i default).Date = d ∧
      1 ≤ rankOf l i ∧ rankOf l i ≤ 5) :
    L.length ≤ 5 := by
  have hinj : ∀ x ∈ L, ∀ y ∈ L, rankOf l x = rankOf l y → x = y := by
    intro x hx y hy heq
    by_contra hne
    exact rankOf_ne l (hmem x hx).1 (hmem y hy).1
      ((hmem x hx).2.1.trans (hmem y hy).2.1.symm) hne heq
  have hmapnd : (L.map (rankOf l)).Nodup := hnd.map_on hinj
  have hsub : (L.map (rankOf l)).toFinset ⊆ Finset.Icc 1 5 := by
    intro x hx
    rw [List.mem_toFinset] at hx
    obtain ⟨i, hi, rfl⟩ := List.mem_map.mp hx
    exact Finset.mem_Icc.mpr ⟨(hmem i hi).2.2.1, (hmem i hi).2.2.2⟩
  have hcard := Finset.card_le_card hsub
  rw [List.toFinset_card_of_nodup hmapnd, Nat.card_Icc, List.length_map]
    at hcard
  omega

lemma top5_count_le (l : List TopRow0) (d : ℤ) :
    ((top5Of l).filter (fun t => t.Date = d)).length ≤ 5 := by
  have hperm := (List.perm_insertionSort leDR
    ((withRank l).filter (fun t => t.Rank ≤ 5))).filter
      (fun t => decide (t.Date = d))
  have hlen : ((top5Of l).filter (fun t => t.Date = d)).length
      = (((withRank l).filter (fun t => t.Rank ≤ 5)).filter
          (fun t => t.Date = d)).length := hperm.length_eq
  rw [hlen, List.filter_filter]
  unfold withRank
  rw [List.filter_map, List.length_map]
  apply length_le_five_of_ranks l d
  · exact (List.nodup_range _).filter _
  · intro i hi
    obtain ⟨hir, hq⟩ := List.mem_filter.mp hi
    have hirange := List.mem_range.mp hir
    simp only [Function.comp_apply, Bool.and_eq_true] at hq
    obtain ⟨hq1, hq2⟩ := hq
    exact ⟨hirange, of_decide_eq_true hq1, rankOf_pos l i,
      of_decide_eq_true hq2⟩

lemma top5_pairwise (l : List TopRow0) :
    (top5Of l).Pairwise (fun a b =>
      a.Date < b.Date ∨ (a.Date = b.Date ∧ a.Rank < b.Rank ∧
        b.Revenue ≤ a.Revenue ∧ (a.Revenue = b.Revenue → a.idx < b.idx))) := by
  have hsorted : (top5Of l).Pairwise leDR :=
    List.sorted_insertionSort leDR _
  have h1 : (withRank l).Pairwise (fun a b => a.idx ≠ b.idx) := by
    unfold withRank
    exact List.Pairwise.map _ (fun a b hab => hab) (List.nodup_range _)
  have h2 : ((withRank l).filter (fun t => t.Rank ≤ 5)).Pairwise
      (fun a b => a.idx ≠ b.idx) :=
    List.Pairwise.sublist (List.filter_sublist _) h1
  have h3 : (top5Of l).Pairwise (fun a b => a.idx ≠ b.idx) := by
    unfold top5Of
    exact (List.Perm.pairwise_iff (fun h => Ne.symm h)
      (List.perm_insertionSort leDR _)).mpr h2
  refine List.Pairwise.imp_of_mem ?_ (hsorted.and h3)
  intro a b ha hb hab
  obtain ⟨hleDR, hneidx⟩ := hab
  obtain ⟨hia, haeq, -⟩ := mem_top5Of ha
  obtain ⟨hib, hbeq, -⟩ := mem_top5Of hb
  rcases hleDR with hlt | ⟨hdeq, hrle⟩
  · exact Or.inl hlt
  · right
    have hDa : a.Date = (l.getD a.idx default).Date := by rw [haeq]; rfl
    have hDb : b.Date = (l.getD b.idx default).Date := by rw [hbeq]; rfl
    have hRka : a.Rank = rankOf l a.idx := by rw [haeq]; rfl
    have hRkb : b.Rank = rankOf l b.idx := by rw [hbeq]; rfl
    have hRva : a.Revenue = (l.getD a.idx default).Revenue := by rw [haeq]; rfl
    have hRvb : b.Revenue = (l.getD b.idx default).Revenue := by rw [hbeq]; rfl
    have hdate : (l.getD a.idx default).Date = (l.getD b.idx default).Date := by
      rw [← hDa, ← hDb]
      exact hdeq
    have hrkneq : rankOf l a.idx ≠ rankOf l b.idx :=
      rankOf_ne l hia hib hdate hneidx
    have hrklt : rankOf l a.idx < rankOf l b.idx := by
      have hle : rankOf l a.idx ≤ rankOf l b.idx := by
        rw [← hRka, ← hRkb]
        exact hrle
      exact lt_of_le_of_ne hle hrkneq
    obtain ⟨hrev, htie⟩ := rankOf_lt_imp l hia hib hdate hrklt
    refine ⟨hdeq, ?_, ?_, ?_⟩
    · rw [hRka, hRkb]
      exact hrklt
    · rw [hRva, hRvb]
      exact hrev
    · intro hveq
      exact htie (by rw [← hRva, ← hRvb]; exact hveq)

/-! ## Claim C7 (confirmed) -/

/-- **C7.**  The top-items output of `pandas_phase` contains at most 5 rows
per date; every rank is between 1 and 5; and along the output order, rows
are sorted by date then rank ascending, with rank strictly increasing
within a date while revenue is non-increasing, and revenue ties within a
date ordered by first-encountered position (`idx`) in the grouped result —
the stable "first seen wins" tie-break, not an item-name or id sort. -/
theorem top5_contract (menu : List MenuRow) (sales : List SaleRow)
    (df : List JoinedRow) (daily : List DailyRow) (vnv : List VnvRow)
    (t5 : List TopRow)
    (h : pandas_phase menu sales = .ok (df, daily, vnv, t5)) :
    (∀ d : ℤ, (t5.filter (fun t => t.Date = d)).length ≤ 5) ∧
    (∀ t ∈ t5, 1 ≤ t.Rank ∧ t.Rank ≤ 5) ∧
    t5.Pairwise (fun a b =>
      a.Date < b.Date ∨ (a.Date = b.Date ∧ a.Rank < b.Rank ∧
        b.Revenue ≤ a.Revenue ∧ (a.Revenue = b.Revenue → a.idx < b.idx))) := by
  obtain ⟨-, -, -, -, ht5⟩ := pandas_phase_ok_inv h
  subst ht5
  refine ⟨fun d => top5_count_le _ d, fun t ht => ?_, top5_pairwise _⟩
  obtain ⟨-, heq, hle⟩ := mem_top5Of ht
  refine ⟨?_, hle⟩
  rw [heq]
  exact rankOf_pos _ _

/-- Seven menu items sold on one date, engineered with a three-way revenue
tie (items `a`, `b`, `e` at revenue 5). -/
def menu7 : List MenuRow :=
  [⟨1, "a", "veg", 5, 3⟩, ⟨2, "b", "veg", 5, 3⟩, ⟨3, "c", "veg", 9, 27/5⟩,
   ⟨4, "d", "veg", 3, 9/5⟩, ⟨5, "e", "veg", 5, 3⟩, ⟨6, "f", "veg", 7, 21/5⟩,
   ⟨7, "g", "veg", 1, 3/5⟩]

def sales7 : List SaleRow :=
  [⟨1, 1, 1, some 0⟩, ⟨2, 1, 1, some 0⟩, ⟨3, 1, 1, some 0⟩, ⟨4, 1, 1, some 0⟩,
   ⟨5, 1, 1, some 0⟩, ⟨6, 1, 1, some 0⟩, ⟨7, 1, 1, some 0⟩]

def df7 : List JoinedRow :=
  [⟨1, 1, 1, some 0, some "a", "Veg", some 5, some 3, some 5, some 3, some 2⟩,
   ⟨2, 1, 1, some 0, some "b", "Veg", some 5, some 3, some 5, some 3, some 2⟩,
   ⟨3, 1, 1, some 0, some "c", "Veg", some 9, some (27/5), some 9,
     some (27/5), some (18/5)⟩,
   ⟨4, 1, 1, some 0, some "d", "Veg", some 3, some (9/5), some 3,
     some (9/5), some (6/5)⟩,
   ⟨5, 1, 1, some 0, some "e", "Veg", some 5, some 3, some 5, some 3, some 2⟩,
   ⟨6, 1, 1, some 0, some "f", "Veg", some 7, some (21/5), some 7,
     some (21/5), some (14/5)⟩,
   ⟨7, 1, 1, some 0, some "g", "Veg", some 1, some (3/5), some 1,
     some (3/5), some (2/5)⟩]

def daily7 : List DailyRow := [⟨0, 35, 21, 14, 7, 7⟩]

def vnv7 : List VnvRow := [⟨0, "Veg", 35, 7⟩]

/-- Ranks 1–5 only (items `d` and `g` are cut); the revenue-5 tie among
`a`, `b`, `e` keeps their grouped-result order (idx 0, 1, 4). -/
def top57 : List TopRow :=
  [⟨0, "c", 9, 1, 1, 2⟩, ⟨0, "f", 7, 1, 2, 5⟩, ⟨0, "a", 5, 1, 3, 0⟩,
   ⟨0, "b", 5, 1, 4, 1⟩, ⟨0, "e", 5, 1, 5, 4⟩]

/-- Witness for C7 at the seven-item tie fixture. -/
theorem top5_contract_witness :
    pandas_phase menu7 sales7 = .ok (df7, daily7, vnv7, top57) ∧
    (top57.filter (fun t => t.Date = 0)).length ≤ 5 ∧
    (1 ≤ (⟨0, "c", 9, 1, 1, 2⟩ : TopRow).Rank ∧
      (⟨0, "c", 9, 1, 1, 2⟩ : TopRow).Rank ≤ 5) ∧
    top57.Pairwise (fun a b =>
      a.Date < b.Date ∨ (a.Date = b.Date ∧ a.Rank < b.Rank ∧
        b.Revenue ≤ a.Revenue ∧ (a.Revenue = b.Revenue → a.idx < b.idx))) := by
  have h : pandas_phase menu7 sales7 = .ok (df7, daily7, vnv7, top57) := by
    with_unfolding_all rfl
  refine ⟨h, (top5_contract menu7 sales7 df7 daily7 vnv7 top57 h).1 0,
    (top5_contract menu7 sales7 df7 daily7 vnv7 top57 h).2.1 _
      (List.mem_cons_self _ _),
    (top5_contract menu7 sales7 df7 daily7 vnv7 top57 h).2.2⟩

end Canteen
